import Mathlib

/-!
Verification of the gamersDB game-ownership server.

Shallow embedding of `src/server.js` (the SQLite implementation, which is the
authoritative one): the database state, the SQL queries issued by the routes,
and the route handlers themselves, together with theorems checking the
claims of the specification about them.

Conventions:
* The two tables `games` and `game_gamers` are lists of rows; `AUTOINCREMENT`
  ids are modelled by the `nextGameId` / `nextEdgeId` counters.
* The JavaScript `String.prototype.trim` and `String.prototype.split` are
  modelled over the character list of the string (`jsTrim`, `jsSplit`).
* Transactional routes additionally return the list of SQL statements they
  issued, in order, so that statement ordering and commit/rollback placement
  can be stated.
* A sqlite callback error on an individual owner-edge `INSERT` is modelled by
  an oracle `edgeFails : String → Bool` passed to `createGame`.
-/

namespace GamersDB

/-! ## JavaScript string primitives -/

/-- Characters removed by the JavaScript `String.prototype.trim`, applied to
a character list: leading and trailing whitespace is dropped. -/
def trimChars (l : List Char) : List Char :=
  ((l.dropWhile Char.isWhitespace).reverse.dropWhile Char.isWhitespace).reverse

/-- Model of `s.trim()` of JavaScript. -/
def jsTrim (s : String) : String :=
  (trimChars s.data).asString

/-- Model of `s.split(c)` of JavaScript, on the character list: splitting the empty
string yields `[[]]`, matching `''.split(',') === ['']`. -/
def splitChars (c : Char) : List Char → List (List Char)
  | [] => [[]]
  | x :: xs =>
    match splitChars c xs with
    | [] => [[]]
    | h :: t => if x = c then [] :: h :: t else (x :: h) :: t

/-- Model of `s.split(c)` of JavaScript, as strings. -/
def jsSplit (c : Char) (s : String) : List String :=
  (splitChars c s.data).map List.asString

/-- Model of `s.split(',').map(name => name.trim()).filter(name => name)`
(server.js lines 127 and 173). -/
def parseNames (s : String) : List String :=
  ((jsSplit ',' s).map jsTrim).filter (fun n => n ≠ "")

/-! ## Database state -/

/-- A row of the `games` table (server.js lines 20-25). -/
structure GameRow where
  id : Nat
  game : String
  players : Int
  deriving Repr, DecidableEq

/-- A row of the `game_gamers` table (server.js lines 28-33). -/
structure EdgeRow where
  id : Nat
  game_id : Nat
  gamer_name : String
  deriving Repr, DecidableEq

/-- The SQLite database state: both tables plus the autoincrement counters. -/
structure DB where
  games : List GameRow
  edges : List EdgeRow
  nextGameId : Nat
  nextEdgeId : Nat
  deriving Repr, DecidableEq

/-- The error outcomes the routes produce: HTTP 400 on bad input, 400 with the
"Gamer already exists for this game" body, 404, and 500 for store failures. -/
inductive ApiError where
  | validation
  | conflict
  | notFound
  | store
  deriving Repr, DecidableEq

/-- SQL statements issued by the transactional routes, recorded in order. -/
inductive Stmt where
  | beginTx
  | insertGame (game : String) (players : Int)
  | insertEdge (game_id : Nat) (gamer_name : String)
  | deleteEdges (game_id : Nat)
  | deleteGame (game_id : Nat)
  | commit
  | rollback
  deriving Repr, DecidableEq

/-! ## Queries -/

/-- The `game_gamers` rows joined to one game by `g.id = gg.game_id`. -/
def edgesOf (db : DB) (gid : Nat) : List EdgeRow :=
  db.edges.filter (fun e => e.game_id == gid)

/-- Aggregate `GROUP_CONCAT(gg.gamer_name)` for one game — no `DISTINCT`
(server.js line 48). -/
def gamerList (db : DB) (gid : Nat) : List String :=
  (edgesOf db gid).map (fun e => e.gamer_name)

/-- Aggregate `GROUP_CONCAT(DISTINCT gg.gamer_name)` for one game (server.js line 75). -/
def distinctGamerList (db : DB) (gid : Nat) : List String :=
  (gamerList db gid).dedup

/-- Aggregate `GROUP_CONCAT(DISTINCT CASE WHEN gg.gamer_name IN (...) THEN gg.gamer_name
END)` for one game (server.js line 76): the distinct owner names of the game
that are members of the candidate group. `NULL` is modelled by `[]`. -/
def ownersInGroup (db : DB) (gid : Nat) (playerNames : List String) : List String :=
  (distinctGamerList db gid).filter (fun n => n ∈ playerNames)

/-- Byte-wise comparison of two character lists, the default BINARY collation
of SQLite for `TEXT` columns. -/
def charListLe : List Char → List Char → Bool
  | [], _ => true
  | _ :: _, [] => false
  | a :: as, b :: bs =>
    if a.toNat = b.toNat then charListLe as bs else decide (a.toNat < b.toNat)

/-- BINARY-collation comparison of two names. -/
def nameLe (a b : String) : Prop := charListLe a.data b.data = true

instance (a b : String) : Decidable (nameLe a b) :=
  inferInstanceAs (Decidable (_ = true))

/-- The `ORDER BY g.game ASC` comparison. -/
def byGameName (a b : GameRow) : Prop := nameLe a.game b.game

instance (a b : GameRow) : Decidable (byGameName a b) :=
  inferInstanceAs (Decidable (nameLe a.game b.game))

/-- A row of the `/api/games/playable` response. -/
structure PlayableRow where
  rowid : Nat
  game : String
  players : Int
  gamer_list : List String
  owners_in_group : List String
  deriving Repr, DecidableEq

/-- Query `getPlayableGames` (server.js lines 67-96): keep a game iff
`g.players >= ?` — the parameter being `playerNames.length` — and
`owners_in_group IS NOT NULL`; order by game name ascending. -/
def getPlayableGames (db : DB) (playerNames : List String) : List PlayableRow :=
  (((db.games.filter (fun g =>
      decide ((playerNames.length : Int) ≤ g.players) &&
      !(ownersInGroup db g.id playerNames).isEmpty)).insertionSort byGameName).map
    (fun g =>
      ⟨g.id, g.game, g.players, distinctGamerList db g.id,
        ownersInGroup db g.id playerNames⟩))

/-- A row of the `/api/games/all` response. -/
structure AllRow where
  rowid : Nat
  game : String
  players : Int
  gamer_list : List String
  deriving Repr, DecidableEq

/-- Route `GET /api/games/all` (server.js lines 101-117): every game with its
(non-distinct) aggregated owner list, ordered by game name. -/
def listAll (db : DB) : List AllRow :=
  (db.games.insertionSort byGameName).map
    (fun g => ⟨g.id, g.game, g.players, gamerList db g.id⟩)

/-- Route `GET /api/games/playable` (server.js lines 120-146). The first component
is the response; the second records whether any query was sent to the store.
`none` models a missing `players` query parameter; the `s == ""` test models
the falsiness of the empty string in `!playersParam`. -/
def listPlayable (db : DB) (playersParam : Option String) :
    Except ApiError (List PlayableRow) × Bool :=
  match playersParam with
  | none => (.error .validation, false)
  | some s =>
    if s == "" then (.error .validation, false)
    else
      let playerNames := parseNames s
      if playerNames.isEmpty then (.error .validation, false)
      else (.ok (getPlayableGames db playerNames), true)

/-! ## Mutating routes -/

deriving instance DecidableEq for Except

/-- Result of `POST /api/games/all`: the response, the database afterwards,
and the SQL statements issued in order. -/
structure CreateResult where
  resp : Except ApiError Nat
  db : DB
  stmts : List Stmt
  deriving Repr, DecidableEq

/-- Route `POST /api/games/all` (server.js lines 149-214). Validation is the JS
truthiness test `!game || !players`, so only an empty name or a zero `players`
value is rejected, before any statement is issued. The route then opens a
transaction, inserts the game row, runs one owner-edge `INSERT` per parsed
name, and commits only after all edge inserts succeeded; if any edge insert
fails (oracle `edgeFails`), it rolls the whole transaction back. `gamers` is
the raw comma-separated owner string (`none` models an absent field). -/
def createGame (db : DB) (game : String) (players : Int) (gamers : Option String)
    (edgeFails : String → Bool) : CreateResult :=
  if game == "" || players == 0 then ⟨.error .validation, db, []⟩
  else
    let gid := db.nextGameId
    let dbG : DB :=
      { db with games := db.games ++ [⟨gid, game, players⟩], nextGameId := gid + 1 }
    match gamers with
    | none => ⟨.ok gid, dbG, [.beginTx, .insertGame game players, .commit]⟩
    | some gs =>
      if jsTrim gs == "" then ⟨.ok gid, dbG, [.beginTx, .insertGame game players, .commit]⟩
      else
        let gamerNames := parseNames gs
        if gamerNames.isEmpty then
          ⟨.ok gid, dbG, [.beginTx, .insertGame game players, .commit]⟩
        else
          let attempts := gamerNames.map (Stmt.insertEdge gid)
          if gamerNames.any edgeFails then
            ⟨.error .store, db,
              [.beginTx, .insertGame game players] ++ attempts ++ [.rollback]⟩
          else
            ⟨.ok gid,
              { dbG with
                  edges := db.edges ++
                    (gamerNames.enumFrom db.nextEdgeId).map
                      (fun p => EdgeRow.mk p.1 gid p.2),
                  nextEdgeId := db.nextEdgeId + gamerNames.length },
              [.beginTx, .insertGame game players] ++ attempts ++ [.commit]⟩

/-- Result of `DELETE /api/games/game/:id`. -/
structure DeleteResult where
  resp : Except ApiError Unit
  db : DB
  stmts : List Stmt
  deriving Repr, DecidableEq

/-- Route `DELETE /api/games/game/:id` (server.js lines 217-247): inside one
transaction delete the edges of the game, then the game row; if the game-row
delete touched zero rows, roll back and answer 404, else commit. -/
def deleteGame (db : DB) (gid : Nat) : DeleteResult :=
  if db.games.countP (fun g => g.id == gid) == 0 then
    ⟨.error .notFound, db, [.beginTx, .deleteEdges gid, .deleteGame gid, .rollback]⟩
  else
    ⟨.ok (),
      { db with games := db.games.filter (fun g => !(g.id == gid)),
                edges := db.edges.filter (fun e => !(e.game_id == gid)) },
      [.beginTx, .deleteEdges gid, .deleteGame gid, .commit]⟩

/-- Route `POST /api/games/game/:id/gamers` (server.js lines 250-285): reject a
name that is empty or whitespace-only; look for an existing edge with the
same `game_id` and the *trimmed* name (case-sensitive string equality); on a
hit answer the conflict error without inserting, otherwise insert the edge
under the trimmed name and return its new id. The `games` table is never
consulted (and the declared `ON DELETE CASCADE` foreign key is never enabled
by a pragma), so the game need not exist. -/
def addOwner (db : DB) (gid : Nat) (gamer_name : String) : Except ApiError Nat × DB :=
  if gamer_name == "" || jsTrim gamer_name == "" then (.error .validation, db)
  else
    let name := jsTrim gamer_name
    if db.edges.any (fun e => e.game_id == gid && e.gamer_name == name) then
      (.error .conflict, db)
    else
      (.ok db.nextEdgeId,
        { db with edges := db.edges ++ [⟨db.nextEdgeId, gid, name⟩],
                  nextEdgeId := db.nextEdgeId + 1 })

/-- Route `DELETE /api/games/game/:id/gamers` (server.js lines 288-311): reject an
empty name; delete every edge matching `game_id` and the *raw, untrimmed*
name; answer 404 when zero rows were affected. -/
def removeOwner (db : DB) (gid : Nat) (gamer_name : String) :
    Except ApiError Unit × DB :=
  if gamer_name == "" then (.error .validation, db)
  else
    if db.edges.countP (fun e => e.game_id == gid && e.gamer_name == gamer_name) == 0 then
      (.error .notFound, db)
    else
      (.ok (),
        { db with edges :=
            db.edges.filter (fun e => !(e.game_id == gid && e.gamer_name == gamer_name)) })

/-! ## Concrete states used by counterexamples and witnesses -/

/-- The empty database. -/
def db0 : DB := ⟨[], [], 1, 1⟩

/-- One game requiring five players, owned by Alice alone. -/
def dbSolitaire : DB := ⟨[⟨1, "Solitaire", 5⟩], [⟨1, 1, "Alice"⟩], 2, 2⟩

/-! ## C1: the playability threshold -/

/--
C1 — counterexample. The claim says `list_playable(G)` includes a game only
if `game.players ≤ |G|`, and in particular never includes a game whose
`players` exceeds `|G|`. The `HAVING` clause in the code is `g.players >= |G|`
(server.js line 81), the opposite direction: with one game requiring 5
players owned by Alice and the group `["Alice"]`, the game is returned even
though `5 > 1`.
-/
theorem playable_threshold_flipped_cex :
    (getPlayableGames dbSolitaire ["Alice"]).map PlayableRow.rowid = [1] ∧
    ¬ ((5 : Int) ≤ ((["Alice"] : List String).length : Int)) := by decide

/--
C1 — amended. For every game and every non-empty candidate-name list `G`
(in a database whose game ids are distinct), `list_playable(G)` includes the
game iff (a) at least one owner name of the game is a member of `G`, and
(b) the `players` value of the game is **greater than or equal to** `|G|`; in
particular no game whose `players` value is *smaller* than `|G|` is ever
returned.
-/
theorem playable_includes_iff (db : DB) (G : List String) (g : GameRow)
    (_hG : G ≠ []) (hg : g ∈ db.games) (hids : (db.games.map GameRow.id).Nodup) :
    (∃ r ∈ getPlayableGames db G, r.rowid = g.id) ↔
      (ownersInGroup db g.id G ≠ [] ∧ (G.length : Int) ≤ g.players) := by
  unfold getPlayableGames
  constructor
  · rintro ⟨r, hr, hrid⟩
    simp only [List.mem_map, List.mem_insertionSort, List.mem_filter] at hr
    obtain ⟨g', ⟨hg', hcond⟩, hfg⟩ := hr
    have hid : g'.id = g.id := by rw [← hfg] at hrid; exact hrid
    have hgg : g' = g := List.inj_on_of_nodup_map hids hg' hg hid
    subst hgg
    simp only [Bool.and_eq_true, decide_eq_true_eq, Bool.not_eq_true',
      List.isEmpty_eq_false] at hcond
    exact ⟨hcond.2, hcond.1⟩
  · rintro ⟨hown, hlen⟩
    refine ⟨⟨g.id, g.game, g.players, distinctGamerList db g.id,
      ownersInGroup db g.id G⟩, ?_, rfl⟩
    simp only [List.mem_map, List.mem_insertionSort, List.mem_filter]
    refine ⟨g, ⟨hg, ?_⟩, rfl⟩
    simp [hlen, hown]

/-- C1 — witness for the amended theorem at the `dbSolitaire` state. -/
theorem playable_includes_iff_witness :
    ((["Alice"] : List String) ≠ []) ∧
    ((⟨1, "Solitaire", 5⟩ : GameRow) ∈ dbSolitaire.games) ∧
    (dbSolitaire.games.map GameRow.id).Nodup ∧
    ((∃ r ∈ getPlayableGames dbSolitaire ["Alice"], r.rowid = 1) ↔
      (ownersInGroup dbSolitaire 1 ["Alice"] ≠ [] ∧
        (((["Alice"] : List String).length : Int) ≤ 5)) ) :=
  ⟨by decide, by decide, by decide,
    playable_includes_iff dbSolitaire ["Alice"] ⟨1, "Solitaire", 5⟩
      (by decide) (by decide) (by decide)⟩

/-! ## Helper lemmas about `parseNames` and `createGame` -/

theorem trimChars_eq_nil {l : List Char} (h : trimChars l = []) :
    ∀ c ∈ l, c.isWhitespace = true := by
  unfold trimChars at h
  rw [List.reverse_eq_nil_iff, List.dropWhile_eq_nil_iff] at h
  have hdrop : ∀ c ∈ l.dropWhile Char.isWhitespace, c.isWhitespace = true := by
    intro c hc
    exact h c (by simpa using hc)
  intro c hc
  rw [← @List.takeWhile_append_dropWhile _ Char.isWhitespace l,
    List.mem_append] at hc
  rcases hc with hc | hc
  · exact List.mem_takeWhile_imp hc
  · exact hdrop c hc

theorem splitChars_of_not_mem {c : Char} {l : List Char} (h : c ∉ l) :
    splitChars c l = [l] := by
  induction l with
  | nil => rfl
  | cons x xs ih =>
    have hx : x ≠ c := fun hxc => h (hxc ▸ List.mem_cons_self x xs)
    have hxs : c ∉ xs := fun hc => h (List.mem_cons_of_mem x hc)
    rw [splitChars, ih hxs]
    simp [hx]

theorem parseNames_eq_nil_of_trim {gs : String} (h : jsTrim gs = "") :
    parseNames gs = [] := by
  have hdata : trimChars gs.data = [] := by
    have := congrArg String.data h
    simpa [jsTrim] using this
  have hws : ∀ c ∈ gs.data, c.isWhitespace = true := trimChars_eq_nil hdata
  have hcomma : (',' : Char) ∉ gs.data := by
    intro hmem
    have := hws ',' hmem
    simp [Char.isWhitespace] at this
  unfold parseNames jsSplit
  rw [splitChars_of_not_mem hcomma]
  simp only [List.map_cons, List.map_nil, List.filter]
  have : jsTrim gs.data.asString = "" := by
    unfold jsTrim
    have : gs.data.asString.data = gs.data := rfl
    rw [this, hdata]
    rfl
  simp [this]

theorem createGame_success (db : DB) (game : String) (players : Int) (gs : String)
    (ef : String → Bool) (hgame : game ≠ "") (hplayers : players ≠ 0)
    (hnames : parseNames gs ≠ []) (hok : ∀ n ∈ parseNames gs, ef n = false) :
    createGame db game players (some gs) ef =
      ⟨.ok db.nextGameId,
        { games := db.games ++ [⟨db.nextGameId, game, players⟩],
          edges := db.edges ++ ((parseNames gs).enumFrom db.nextEdgeId).map
              (fun p => EdgeRow.mk p.1 db.nextGameId p.2),
          nextGameId := db.nextGameId + 1,
          nextEdgeId := db.nextEdgeId + (parseNames gs).length },
        [.beginTx, .insertGame game players] ++
          (parseNames gs).map (Stmt.insertEdge db.nextGameId) ++ [.commit]⟩ := by
  have h2 : jsTrim gs ≠ "" := fun h => hnames (parseNames_eq_nil_of_trim h)
  have c1 : (game == "" || players == 0) = false := by
    simp [hgame, hplayers]
  have c2 : (jsTrim gs == "") = false := by simp [h2]
  have c3 : (parseNames gs).isEmpty = false := by simp [hnames]
  have c4 : (parseNames gs).any ef = false := by
    rw [List.any_eq_false]
    intro n hn
    simp [hok n hn]
  simp only [createGame, c1, c2, c3, c4, Bool.false_eq_true, if_false]

theorem createGame_failure (db : DB) (game : String) (players : Int) (gs : String)
    (ef : String → Bool) (hgame : game ≠ "") (hplayers : players ≠ 0)
    (hnames : parseNames gs ≠ []) (hfail : ∃ n ∈ parseNames gs, ef n = true) :
    createGame db game players (some gs) ef =
      ⟨.error .store, db,
        [.beginTx, .insertGame game players] ++
          (parseNames gs).map (Stmt.insertEdge db.nextGameId) ++ [.rollback]⟩ := by
  have h2 : jsTrim gs ≠ "" := fun h => hnames (parseNames_eq_nil_of_trim h)
  have c1 : (game == "" || players == 0) = false := by
    simp [hgame, hplayers]
  have c2 : (jsTrim gs == "") = false := by simp [h2]
  have c3 : (parseNames gs).isEmpty = false := by simp [hnames]
  have c4 : (parseNames gs).any ef = true := by
    rw [List.any_eq_true]
    obtain ⟨n, hn, hefn⟩ := hfail
    exact ⟨n, hn, hefn⟩
  simp only [createGame, c1, c2, c3, c4, Bool.false_eq_true, if_false, if_true]

theorem edges_for_new_game (gid : Nat) (names : List String) : ∀ k : Nat,
    (((names.enumFrom k).map (fun p => EdgeRow.mk p.1 gid p.2)).filter
      (fun e => e.game_id == gid)).map (fun e => e.gamer_name) = names := by
  induction names with
  | nil => intro k; rfl
  | cons n ns ih => intro k; simp [List.enumFrom, ih (k + 1)]

theorem mem_listAll (db : DB) (g : GameRow) (hg : g ∈ db.games) :
    (⟨g.id, g.game, g.players, gamerList db g.id⟩ : AllRow) ∈ listAll db := by
  unfold listAll
  simp only [List.mem_map, List.mem_insertionSort]
  exact ⟨g, hg, rfl⟩

theorem gamerList_createGame (db : DB) (game : String) (players : Int) (gs : String)
    (ef : String → Bool) (hgame : game ≠ "") (hplayers : players ≠ 0)
    (hnames : parseNames gs ≠ []) (hok : ∀ n ∈ parseNames gs, ef n = false)
    (hstaleE : ∀ e ∈ db.edges, e.game_id ≠ db.nextGameId) :
    gamerList (createGame db game players (some gs) ef).db db.nextGameId =
      parseNames gs := by
  rw [createGame_success db game players gs ef hgame hplayers hnames hok]
  unfold gamerList edgesOf
  rw [List.filter_append]
  have hold : db.edges.filter (fun e => e.game_id == db.nextGameId) = [] := by
    rw [List.filter_eq_nil_iff]
    intro e he
    simpa using hstaleE e he
  rw [hold, List.nil_append]
  exact edges_for_new_game db.nextGameId (parseNames gs) db.nextEdgeId

/-! ## C2: atomicity of game creation -/

/--
C2 — confirmed. `create_game` is atomic: with a non-empty parsed owner list,
if every edge insert succeeds the route issues `BEGIN`, the game insert, one
edge insert per name, and then a single `COMMIT` after all the edge inserts,
and a subsequent `list_all` shows exactly those owner edges for the new game;
if any edge insert fails, the transaction (game row included) is rolled back,
so the caller sees the untouched database and the game row does not exist.
-/
theorem create_game_atomic (db : DB) (game : String) (players : Int) (gs : String)
    (ef : String → Bool) (hgame : game ≠ "") (hplayers : players ≠ 0)
    (hnames : parseNames gs ≠ [])
    (hstaleE : ∀ e ∈ db.edges, e.game_id ≠ db.nextGameId)
    (hstaleG : ∀ g ∈ db.games, g.id ≠ db.nextGameId) :
    ((∀ n ∈ parseNames gs, ef n = false) →
      (createGame db game players (some gs) ef).resp = .ok db.nextGameId ∧
      (createGame db game players (some gs) ef).stmts =
        [.beginTx, .insertGame game players] ++
          (parseNames gs).map (Stmt.insertEdge db.nextGameId) ++ [.commit] ∧
      (createGame db game players (some gs) ef).stmts.count .commit = 1 ∧
      (∃ r ∈ listAll (createGame db game players (some gs) ef).db,
        r.rowid = db.nextGameId ∧ r.gamer_list = parseNames gs)) ∧
    ((∃ n ∈ parseNames gs, ef n = true) →
      (createGame db game players (some gs) ef).resp = .error .store ∧
      (createGame db game players (some gs) ef).db = db ∧
      (∀ g ∈ (createGame db game players (some gs) ef).db.games,
        g.id ≠ db.nextGameId) ∧
      (createGame db game players (some gs) ef).stmts =
        [.beginTx, .insertGame game players] ++
          (parseNames gs).map (Stmt.insertEdge db.nextGameId) ++ [.rollback]) := by
  constructor
  · intro hok
    have hgl := gamerList_createGame db game players gs ef hgame hplayers hnames hok hstaleE
    have heq := createGame_success db game players gs ef hgame hplayers hnames hok
    refine ⟨by rw [heq], by rw [heq], ?_, ?_⟩
    · rw [heq]
      have h0 : (List.map (Stmt.insertEdge db.nextGameId) (parseNames gs)).count
          Stmt.commit = 0 := by
        rw [List.count_eq_zero]
        intro hmem
        obtain ⟨n, _, habs⟩ := List.mem_map.mp hmem
        exact Stmt.noConfusion habs
      rw [List.count_append, List.count_append, h0]
      rfl
    · refine ⟨⟨db.nextGameId, game, players,
        gamerList (createGame db game players (some gs) ef).db db.nextGameId⟩,
        mem_listAll _ ⟨db.nextGameId, game, players⟩ ?_, rfl, hgl⟩
      rw [heq]
      simp
  · intro hfail
    rw [createGame_failure db game players gs ef hgame hplayers hnames hfail]
    exact ⟨rfl, rfl, hstaleG, rfl⟩

/-- C2 — witness: creating "Catan" with owners "Alice,Bob" on the empty
database, with no edge insert failing. -/
theorem create_game_atomic_witness :
    ("Catan" ≠ "") ∧ ((3 : Int) ≠ 0) ∧ (parseNames "Alice,Bob" ≠ []) ∧
    (∀ e ∈ db0.edges, e.game_id ≠ db0.nextGameId) ∧
    (∀ g ∈ db0.games, g.id ≠ db0.nextGameId) ∧
    ((∀ n ∈ parseNames "Alice,Bob", (fun _ => false) n = false) →
      (createGame db0 "Catan" 3 (some "Alice,Bob") (fun _ => false)).resp = .ok db0.nextGameId ∧
      (createGame db0 "Catan" 3 (some "Alice,Bob") (fun _ => false)).stmts =
        [.beginTx, .insertGame "Catan" 3] ++
          (parseNames "Alice,Bob").map (Stmt.insertEdge db0.nextGameId) ++ [.commit] ∧
      (createGame db0 "Catan" 3 (some "Alice,Bob") (fun _ => false)).stmts.count .commit = 1 ∧
      (∃ r ∈ listAll (createGame db0 "Catan" 3 (some "Alice,Bob") (fun _ => false)).db,
        r.rowid = db0.nextGameId ∧ r.gamer_list = parseNames "Alice,Bob")) :=
  ⟨by decide, by decide, by decide, by decide, by decide,
    (create_game_atomic db0 "Catan" 3 "Alice,Bob" (fun _ => false)
      (by decide) (by decide) (by decide) (by decide) (by decide)).1⟩

/-! ## C3: validation of game creation -/

/--
C3 — counterexample. The claim says `create_game` fails with a
ValidationError, before issuing any store statement, whenever `players` is
not a positive integer. The check in the route is JS truthiness (`!game ||
!players`, server.js line 152), which only rejects `players === 0`: with
`players = -3` validation passes, statements are issued, and the game is
created.
-/
theorem create_game_validation_cex :
    (createGame db0 "Monopoly" (-3) none (fun _ => false)).resp = .ok 1 ∧
    ¬ (0 < (-3 : Int)) ∧
    (createGame db0 "Monopoly" (-3) none (fun _ => false)).stmts ≠ [] := by decide

/--
C3 — amended. `create_game` fails with ValidationError, before issuing any
store statement, **iff** its `game` argument is empty or its `players`
argument is zero (the JS-truthiness check); for every input with non-empty
name and non-zero `players` — in particular every positive integer, but also
any negative value — validation passes and the insert proceeds (the route
opens the transaction and issues the game insert).
-/
theorem create_game_validation (db : DB) (game : String) (players : Int)
    (gamers : Option String) (ef : String → Bool) :
    ((game = "" ∨ players = 0) →
      createGame db game players gamers ef = ⟨.error .validation, db, []⟩) ∧
    (game ≠ "" → players ≠ 0 →
      (createGame db game players gamers ef).resp ≠ .error .validation ∧
      (createGame db game players gamers ef).stmts.take 2 =
        [.beginTx, .insertGame game players]) := by
  constructor
  · intro h
    have hc : (game == "" || players == 0) = true := by
      rcases h with h | h <;> simp [h]
    simp [createGame, hc]
  · intro h1 h2
    have hc : (game == "" || players == 0) = false := by simp [h1, h2]
    unfold createGame
    rw [hc]
    simp only [Bool.false_eq_true, if_false]
    split
    · exact ⟨by simp, rfl⟩
    · split
      · exact ⟨by simp, rfl⟩
      · split
        · exact ⟨by simp, rfl⟩
        · split
          · exact ⟨by simp, rfl⟩
          · exact ⟨by simp, rfl⟩

/-- C3 — witness for the amended theorem: "Catan" with `players = 3` passes
validation and the insert proceeds. -/
theorem create_game_validation_witness :
    ("Catan" ≠ "") ∧ ((3 : Int) ≠ 0) ∧
    ((createGame db0 "Catan" 3 none (fun _ => false)).resp ≠ .error .validation ∧
      (createGame db0 "Catan" 3 none (fun _ => false)).stmts.take 2 =
        [.beginTx, .insertGame "Catan" 3]) :=
  ⟨by decide, by decide,
    (create_game_validation db0 "Catan" 3 none (fun _ => false)).2
      (by decide) (by decide)⟩

/-! ## C4: cascading game deletion -/

theorem deleteGame_notFound (db : DB) (gid : Nat)
    (h : ∀ g ∈ db.games, g.id ≠ gid) :
    deleteGame db gid =
      ⟨.error .notFound, db,
        [.beginTx, .deleteEdges gid, .deleteGame gid, .rollback]⟩ := by
  have hc : db.games.countP (fun g => g.id == gid) = 0 := by
    rw [List.countP_eq_zero]
    intro g hg
    simpa using h g hg
  simp [deleteGame, hc]

theorem deleteGame_found (db : DB) (gid : Nat)
    (h : ∃ g ∈ db.games, g.id = gid) :
    deleteGame db gid =
      ⟨.ok (),
        { db with games := db.games.filter (fun g => !(g.id == gid)),
                  edges := db.edges.filter (fun e => !(e.game_id == gid)) },
        [.beginTx, .deleteEdges gid, .deleteGame gid, .commit]⟩ := by
  have hc : db.games.countP (fun g => g.id == gid) ≠ 0 := by
    obtain ⟨g, hg, hid⟩ := h
    have : 0 < db.games.countP (fun g => g.id == gid) :=
      List.countP_pos_iff.mpr ⟨g, hg, by simp [hid]⟩
    omega
  simp [deleteGame, hc]

/--
C4 — confirmed. `delete_game(id)` deletes, inside one transaction, all
ownership edges for `id` and then the game row; if the game-row delete
affects zero rows the transaction is rolled back (matched edge deletions are
not retained — the database is unchanged) and NotFound is signalled;
otherwise it commits, leaving zero rows referencing `id` in the ownership
table, and a second `delete_game(id)` returns NotFound.
-/
theorem delete_game_cascades (db : DB) (gid : Nat) :
    ((∀ g ∈ db.games, g.id ≠ gid) →
      deleteGame db gid =
        ⟨.error .notFound, db,
          [.beginTx, .deleteEdges gid, .deleteGame gid, .rollback]⟩) ∧
    ((∃ g ∈ db.games, g.id = gid) →
      (deleteGame db gid).resp = .ok () ∧
      (deleteGame db gid).stmts =
        [.beginTx, .deleteEdges gid, .deleteGame gid, .commit] ∧
      edgesOf (deleteGame db gid).db gid = [] ∧
      (∀ g ∈ (deleteGame db gid).db.games, g.id ≠ gid) ∧
      (deleteGame (deleteGame db gid).db gid).resp = .error .notFound) := by
  refine ⟨deleteGame_notFound db gid, ?_⟩
  intro h
  have heq := deleteGame_found db gid h
  have hgone : ∀ g ∈ (deleteGame db gid).db.games, g.id ≠ gid := by
    rw [heq]
    intro g hg
    have := (List.mem_filter.mp hg).2
    simpa using this
  refine ⟨by rw [heq], by rw [heq], ?_, hgone, ?_⟩
  · rw [heq]
    unfold edgesOf
    rw [List.filter_filter, List.filter_eq_nil_iff]
    intro e _
    cases he : (e.game_id == gid) <;> simp [he]
  · rw [deleteGame_notFound (deleteGame db gid).db gid hgone]

/-- C4 — witness: deleting game 1 of `dbSolitaire`, which has one owner
edge. -/
theorem delete_game_cascades_witness :
    (∃ g ∈ dbSolitaire.games, g.id = 1) ∧
    ((deleteGame dbSolitaire 1).resp = .ok () ∧
      (deleteGame dbSolitaire 1).stmts =
        [.beginTx, .deleteEdges 1, .deleteGame 1, .commit] ∧
      edgesOf (deleteGame dbSolitaire 1).db 1 = [] ∧
      (∀ g ∈ (deleteGame dbSolitaire 1).db.games, g.id ≠ 1) ∧
      (deleteGame (deleteGame dbSolitaire 1).db 1).resp = .error .notFound) :=
  ⟨by decide, (delete_game_cascades dbSolitaire 1).2 (by decide)⟩

/-! ## Helper lemmas about `addOwner` -/

theorem addOwner_validation_false {name : String} (hname : jsTrim name ≠ "") :
    (name == "" || jsTrim name == "") = false := by
  have hname0 : name ≠ "" := by
    intro h
    subst h
    exact hname rfl
  simp [hname0, hname]

theorem addOwner_conflict (db : DB) (gid : Nat) (name : String)
    (hname : jsTrim name ≠ "")
    (hdup : ∃ e ∈ db.edges, e.game_id = gid ∧ e.gamer_name = jsTrim name) :
    addOwner db gid name = (.error .conflict, db) := by
  have hany : db.edges.any
      (fun e => e.game_id == gid && e.gamer_name == jsTrim name) = true := by
    rw [List.any_eq_true]
    obtain ⟨e, he, h1, h2⟩ := hdup
    exact ⟨e, he, by simp [h1, h2]⟩
  simp [addOwner, addOwner_validation_false hname, hany]

theorem addOwner_ok (db : DB) (gid : Nat) (name : String)
    (hname : jsTrim name ≠ "")
    (hfresh : ∀ e ∈ db.edges, ¬(e.game_id = gid ∧ e.gamer_name = jsTrim name)) :
    addOwner db gid name =
      (.ok db.nextEdgeId,
        { db with edges := db.edges ++ [⟨db.nextEdgeId, gid, jsTrim name⟩],
                  nextEdgeId := db.nextEdgeId + 1 }) := by
  have hany : db.edges.any
      (fun e => e.game_id == gid && e.gamer_name == jsTrim name) = false := by
    rw [List.any_eq_false]
    intro e he
    have := hfresh e he
    simp only [Bool.and_eq_true, beq_iff_eq]
    exact fun hc => this ⟨hc.1, hc.2⟩
  simp [addOwner, addOwner_validation_false hname, hany]

/-! ## C5: duplicate owners are rejected -/

/--
C5 — confirmed. `add_owner(game_id, gamer_name)` checks existing membership
by (case-sensitive) string equality on the pair of `game_id` and the stored
(trimmed) name; if the edge already exists it fails with ConflictError and
changes nothing, so calling `add_owner` twice with the same arguments yields
ConflictError the second time and exactly one matching edge row exists.
-/
theorem add_owner_duplicate (db : DB) (gid : Nat) (name : String)
    (hname : jsTrim name ≠ "") :
    ((∃ e ∈ db.edges, e.game_id = gid ∧ e.gamer_name = jsTrim name) →
      addOwner db gid name = (.error .conflict, db)) ∧
    ((∀ e ∈ db.edges, ¬(e.game_id = gid ∧ e.gamer_name = jsTrim name)) →
      (addOwner db gid name).1 = .ok db.nextEdgeId ∧
      (addOwner (addOwner db gid name).2 gid name).1 = .error .conflict ∧
      (addOwner (addOwner db gid name).2 gid name).2 = (addOwner db gid name).2 ∧
      ((addOwner db gid name).2.edges.countP
        (fun e => e.game_id == gid && e.gamer_name == jsTrim name)) = 1) := by
  refine ⟨addOwner_conflict db gid name hname, ?_⟩
  intro hfresh
  have heq := addOwner_ok db gid name hname hfresh
  have hdup : ∃ e ∈ (addOwner db gid name).2.edges,
      e.game_id = gid ∧ e.gamer_name = jsTrim name := by
    rw [heq]
    exact ⟨⟨db.nextEdgeId, gid, jsTrim name⟩, by simp, rfl, rfl⟩
  have heq2 := addOwner_conflict (addOwner db gid name).2 gid name hname hdup
  refine ⟨by rw [heq], by rw [heq2], by rw [heq2], ?_⟩
  rw [heq]
  have h0 : db.edges.countP
      (fun e => e.game_id == gid && e.gamer_name == jsTrim name) = 0 := by
    rw [List.countP_eq_zero]
    intro e he
    have := hfresh e he
    simp only [Bool.and_eq_true, beq_iff_eq]
    exact fun hc => this ⟨hc.1, hc.2⟩
  simp [List.countP_append, h0]

/-- C5 — witness: adding "Alice" to game 1 twice on the empty database. -/
theorem add_owner_duplicate_witness :
    (jsTrim "Alice" ≠ "") ∧
    ((addOwner db0 1 "Alice").1 = .ok db0.nextEdgeId ∧
      (addOwner (addOwner db0 1 "Alice").2 1 "Alice").1 = .error .conflict ∧
      (addOwner (addOwner db0 1 "Alice").2 1 "Alice").2 = (addOwner db0 1 "Alice").2 ∧
      ((addOwner db0 1 "Alice").2.edges.countP
        (fun e => e.game_id == 1 && e.gamer_name == jsTrim "Alice")) = 1) :=
  ⟨by decide, (add_owner_duplicate db0 1 "Alice" (by decide)).2 (by decide)⟩

/-! ## C6: validation of the playable query -/

/--
C6 — confirmed. For every candidate-name input that is empty after
trimming and deduplication (a missing parameter, an empty string, or a
string whose parsed name list is empty), `list_playable` fails with
ValidationError without touching the store — never returning an empty list;
for every non-empty candidate group under which no game qualifies, it
returns the empty sequence with success, not an error.
-/
theorem list_playable_validation (db : DB) (s : String) :
    (parseNames s = [] →
      listPlayable db (some s) = (.error .validation, false) ∧
      listPlayable db none = (.error .validation, false)) ∧
    (parseNames s ≠ [] → getPlayableGames db (parseNames s) = [] →
      listPlayable db (some s) = (.ok [], true)) := by
  constructor
  · intro h
    refine ⟨?_, rfl⟩
    unfold listPlayable
    by_cases hs : s = ""
    · simp [hs]
    · simp [hs, h]
  · intro h hempty
    have hs : s ≠ "" := by
      intro hs
      subst hs
      exact h rfl
    unfold listPlayable
    simp [hs, h, hempty]

/-- C6 — witness: the whitespace-only group `" , "` is rejected without a
store query, and the singleton group `["Zoe"]` on `dbSolitaire` (where Zoe
owns nothing) yields the empty list with success. -/
theorem list_playable_validation_witness :
    (parseNames " , " = [] ∧
      listPlayable dbSolitaire (some " , ") = (.error .validation, false)) ∧
    (parseNames "Zoe" ≠ [] ∧ getPlayableGames dbSolitaire (parseNames "Zoe") = [] ∧
      listPlayable dbSolitaire (some "Zoe") = (.ok [], true)) :=
  ⟨⟨by decide,
      ((list_playable_validation dbSolitaire " , ").1 (by decide)).1⟩,
    ⟨by decide, by decide,
      (list_playable_validation dbSolitaire "Zoe").2 (by decide) (by decide)⟩⟩

/-! ## C7: the per-game uniqueness invariant -/

/--
C7 — counterexample. The claim says `create_game` inserts exactly one edge
per **distinct** non-empty trimmed name, duplicated input names producing
only one edge. The route does not deduplicate (server.js line 173, no
dedup step): creating "Catan" with `gamers = "Alice,Alice"` inserts two
edges with the same name for the same game, so the per-game uniqueness
invariant is violated by `create_game`.
-/
theorem create_game_no_dedup_cex :
    parseNames "Alice,Alice" = ["Alice", "Alice"] ∧
    ((createGame db0 "Catan" 3 (some "Alice,Alice") (fun _ => false)).db.edges.countP
      (fun e => e.game_id == 1 && e.gamer_name == "Alice")) = 2 := by decide

/--
C7 — amended. The per-game uniqueness invariant is enforced by `add_owner`,
which rejects a duplicate pair with ConflictError without touching the
database; but `create_game` inserts one ownership edge per *occurrence* of
each non-empty trimmed name in the input (no deduplication), so duplicated
names in the input produce duplicate edges and `create_game` does not
preserve the invariant.
-/
theorem per_game_uniqueness (db : DB) (gid : Nat) (name : String)
    (game : String) (players : Int) (gs : String) (ef : String → Bool)
    (hname : jsTrim name ≠ "")
    (hdup : ∃ e ∈ db.edges, e.game_id = gid ∧ e.gamer_name = jsTrim name)
    (hgame : game ≠ "") (hplayers : players ≠ 0)
    (hnames : parseNames gs ≠ []) (hok : ∀ n ∈ parseNames gs, ef n = false)
    (hstaleE : ∀ e ∈ db.edges, e.game_id ≠ db.nextGameId) :
    addOwner db gid name = (.error .conflict, db) ∧
    gamerList (createGame db game players (some gs) ef).db db.nextGameId =
      parseNames gs :=
  ⟨addOwner_conflict db gid name hname hdup,
    gamerList_createGame db game players gs ef hgame hplayers hnames hok hstaleE⟩

/-- C7 — witness: on `dbSolitaire`, re-adding Alice to game 1 conflicts,
while creating "Chess" with `gamers = "Alice,Alice"` stores the parsed
owner list with the duplicate kept. -/
theorem per_game_uniqueness_witness :
    (jsTrim "Alice" ≠ "") ∧
    (∃ e ∈ dbSolitaire.edges, e.game_id = 1 ∧ e.gamer_name = jsTrim "Alice") ∧
    (addOwner dbSolitaire 1 "Alice" = (.error .conflict, dbSolitaire) ∧
      gamerList
        (createGame dbSolitaire "Chess" 2 (some "Alice,Alice") (fun _ => false)).db
        dbSolitaire.nextGameId = parseNames "Alice,Alice") :=
  ⟨by decide, by decide,
    per_game_uniqueness dbSolitaire 1 "Alice" "Chess" 2 "Alice,Alice"
      (fun _ => false) (by decide) (by decide) (by decide) (by decide)
      (by decide) (by decide) (by decide)⟩

/-! ## C8: removing an owner -/

theorem removeOwner_notFound (db : DB) (gid : Nat) (name : String)
    (hname : name ≠ "")
    (h : ∀ e ∈ db.edges, ¬(e.game_id = gid ∧ e.gamer_name = name)) :
    removeOwner db gid name = (.error .notFound, db) := by
  have hc : db.edges.countP
      (fun e => e.game_id == gid && e.gamer_name == name) = 0 := by
    rw [List.countP_eq_zero]
    intro e he
    have := h e he
    simp only [Bool.and_eq_true, beq_iff_eq]
    exact fun hc => this ⟨hc.1, hc.2⟩
  simp [removeOwner, hname, hc]

theorem removeOwner_found (db : DB) (gid : Nat) (name : String)
    (hname : name ≠ "")
    (h : ∃ e ∈ db.edges, e.game_id = gid ∧ e.gamer_name = name) :
    removeOwner db gid name =
      (.ok (),
        { db with edges :=
            db.edges.filter (fun e => !(e.game_id == gid && e.gamer_name == name)) }) := by
  have hc : db.edges.countP
      (fun e => e.game_id == gid && e.gamer_name == name) ≠ 0 := by
    obtain ⟨e, he, h1, h2⟩ := h
    have : 0 < db.edges.countP (fun e => e.game_id == gid && e.gamer_name == name) :=
      List.countP_pos_iff.mpr ⟨e, he, by simp [h1, h2]⟩
    omega
  simp [removeOwner, hname, hc]

/--
C8 — confirmed. `remove_owner(game_id, gamer_name)` deletes exactly the
edges matching the pair (everything else is kept and the games table is
untouched); it succeeds when such an edge existed and signals NotFound when
zero rows are affected, so calling `remove_owner` twice for the same
existing pair yields success then NotFound, never a second silent success.
-/
theorem remove_owner_idempotence (db : DB) (gid : Nat) (name : String)
    (hname : name ≠ "") :
    ((∀ e ∈ db.edges, ¬(e.game_id = gid ∧ e.gamer_name = name)) →
      removeOwner db gid name = (.error .notFound, db)) ∧
    ((∃ e ∈ db.edges, e.game_id = gid ∧ e.gamer_name = name) →
      (removeOwner db gid name).1 = .ok () ∧
      (removeOwner db gid name).2.games = db.games ∧
      (removeOwner db gid name).2.edges =
        db.edges.filter (fun e => !(e.game_id == gid && e.gamer_name == name)) ∧
      (removeOwner (removeOwner db gid name).2 gid name).1 = .error .notFound) := by
  refine ⟨removeOwner_notFound db gid name hname, ?_⟩
  intro h
  have heq := removeOwner_found db gid name hname h
  have hgone : ∀ e ∈ (removeOwner db gid name).2.edges,
      ¬(e.game_id = gid ∧ e.gamer_name = name) := by
    rw [heq]
    intro e he
    have := (List.mem_filter.mp he).2
    simp only [Bool.not_eq_eq_eq_not, Bool.not_true, Bool.and_eq_false_iff,
      beq_eq_false_iff_ne, ne_eq] at this
    rintro ⟨h1, h2⟩
    rcases this with hh | hh
    · exact hh h1
    · exact hh h2
  refine ⟨by rw [heq], by rw [heq], by rw [heq], ?_⟩
  rw [removeOwner_notFound (removeOwner db gid name).2 gid name hname hgone]

/-- C8 — witness: removing Alice from game 1 of `dbSolitaire` twice. -/
theorem remove_owner_idempotence_witness :
    ("Alice" ≠ "") ∧
    ((removeOwner dbSolitaire 1 "Alice").1 = .ok () ∧
      (removeOwner dbSolitaire 1 "Alice").2.games = dbSolitaire.games ∧
      (removeOwner dbSolitaire 1 "Alice").2.edges =
        dbSolitaire.edges.filter
          (fun e => !(e.game_id == 1 && e.gamer_name == "Alice")) ∧
      (removeOwner (removeOwner dbSolitaire 1 "Alice").2 1 "Alice").1 =
        .error .notFound) :=
  ⟨by decide, (remove_owner_idempotence dbSolitaire 1 "Alice" (by decide)).2
    (by decide)⟩

/-! ## C9: add_owner never checks that the game exists -/

/--
C9 — confirmed. `add_owner` never consults the `games` table (and the
declared `ON DELETE CASCADE` foreign key is never enabled by the program,
which issues no `PRAGMA foreign_keys`): for every `game_id` absent from the
games table and every name with non-empty trim not already paired with that
id, `add_owner` succeeds, returns the new edge identifier, and creates an
ownership edge that references no game.
-/
theorem add_owner_orphan (db : DB) (gid : Nat) (name : String)
    (hgone : ∀ g ∈ db.games, g.id ≠ gid)
    (hname : jsTrim name ≠ "")
    (hfresh : ∀ e ∈ db.edges, ¬(e.game_id = gid ∧ e.gamer_name = jsTrim name)) :
    (addOwner db gid name).1 = .ok db.nextEdgeId ∧
    EdgeRow.mk db.nextEdgeId gid (jsTrim name) ∈ (addOwner db gid name).2.edges ∧
    (addOwner db gid name).2.games = db.games ∧
    (∀ g ∈ (addOwner db gid name).2.games, g.id ≠ gid) := by
  have heq := addOwner_ok db gid name hname hfresh
  refine ⟨by rw [heq], ?_, by rw [heq], ?_⟩
  · rw [heq]
    simp
  · rw [heq]
    exact hgone

/-- C9 — witness: adding Alice to the nonexistent game 7 of the empty
database succeeds and creates an orphan edge. -/
theorem add_owner_orphan_witness :
    (∀ g ∈ db0.games, g.id ≠ 7) ∧ (jsTrim "Alice" ≠ "") ∧
    ((addOwner db0 7 "Alice").1 = .ok db0.nextEdgeId ∧
      EdgeRow.mk db0.nextEdgeId 7 (jsTrim "Alice") ∈ (addOwner db0 7 "Alice").2.edges ∧
      (addOwner db0 7 "Alice").2.games = db0.games ∧
      (∀ g ∈ (addOwner db0 7 "Alice").2.games, g.id ≠ 7)) :=
  ⟨by decide, by decide,
    add_owner_orphan db0 7 "Alice" (by decide) (by decide) (by decide)⟩

/-! ## C10: add_owner trims, remove_owner does not -/

/--
C10 — confirmed. `add_owner` trims the name before both the duplicate check
and the insert, while `remove_owner` matches the raw untrimmed string: for
every name with surrounding whitespace (trim differs from the raw string),
`add_owner` followed by `remove_owner` with the identical raw string yields
NotFound from the remove, which changes nothing, and the edge stored under
the trimmed name still exists.
-/
theorem add_trim_remove_raw (db : DB) (gid : Nat) (name : String)
    (hws : jsTrim name ≠ name) (hname : jsTrim name ≠ "")
    (hfresh : ∀ e ∈ db.edges, ¬(e.game_id = gid ∧ e.gamer_name = jsTrim name))
    (hraw : ∀ e ∈ db.edges, ¬(e.game_id = gid ∧ e.gamer_name = name)) :
    (addOwner db gid name).1 = .ok db.nextEdgeId ∧
    (removeOwner (addOwner db gid name).2 gid name).1 = .error .notFound ∧
    (removeOwner (addOwner db gid name).2 gid name).2 = (addOwner db gid name).2 ∧
    EdgeRow.mk db.nextEdgeId gid (jsTrim name) ∈
      (removeOwner (addOwner db gid name).2 gid name).2.edges := by
  have hname0 : name ≠ "" := by
    intro h
    subst h
    exact hname rfl
  have heq := addOwner_ok db gid name hname hfresh
  have hraw1 : ∀ e ∈ (addOwner db gid name).2.edges,
      ¬(e.game_id = gid ∧ e.gamer_name = name) := by
    rw [heq]
    intro e he
    rcases List.mem_append.mp he with h | h
    · exact hraw e h
    · have he' : e = EdgeRow.mk db.nextEdgeId gid (jsTrim name) := by simpa using h
      subst he'
      rintro ⟨_, hn⟩
      exact hws hn
  have heq2 := removeOwner_notFound (addOwner db gid name).2 gid name hname0 hraw1
  refine ⟨by rw [heq], by rw [heq2], by rw [heq2], ?_⟩
  rw [heq2, heq]
  simp

/-- C10 — witness: adding `" Alice "` (with spaces) to game 1, then removing
the identical raw string: the remove answers NotFound and the edge stored as
`"Alice"` survives. -/
theorem add_trim_remove_raw_witness :
    (jsTrim " Alice " ≠ " Alice ") ∧ (jsTrim " Alice " ≠ "") ∧
    ((addOwner db0 1 " Alice ").1 = .ok db0.nextEdgeId ∧
      (removeOwner (addOwner db0 1 " Alice ").2 1 " Alice ").1 = .error .notFound ∧
      (removeOwner (addOwner db0 1 " Alice ").2 1 " Alice ").2 =
        (addOwner db0 1 " Alice ").2 ∧
      EdgeRow.mk db0.nextEdgeId 1 (jsTrim " Alice ") ∈
        (removeOwner (addOwner db0 1 " Alice ").2 1 " Alice ").2.edges) :=
  ⟨by decide, by decide,
    add_trim_remove_raw db0 1 " Alice " (by decide) (by decide) (by decide)
      (by decide)⟩

end GamersDB
